import Mathlib

set_option maxRecDepth 8000

attribute [local semireducible] Rat.mul Rat.add Rat.sub Rat.inv Rat.ofScientific

/-! Verification development for the invoice generator
(`generate-invoice.py`).  The script is a linear pipeline: collect input,
assemble an invoice record, render a document, and persist a counter and
client profiles as JSON files.  Below, the persistence layer, the item-string
parser, the numbering policy and the rendered table are shallowly embedded as
executable Lean definitions, and the specified properties are proved about
them.  Python machine-level details that the claims do not touch (IEEE floats,
Unicode classes beyond ASCII, `inf`/`nan` float literals) are idealised:
numbers are exact rationals and character classes are ASCII, as noted at each
definition. -/

/-! ### Decimal rendering

Python renders the counter with the format string `f"...{n:03d}"`: decimal
digits of `n`, zero-padded on the left to a minimum width of 3.  We model the
decimal digit expansion with an explicit fuel so that it is structurally
recursive and evaluates by kernel reduction. -/

/-- Digit list of `n` in base 10, most significant first, computed with
`fuel` recursion steps; `fuel ≥ n` always suffices. -/
def decDigitsF : Nat → Nat → List Nat
  | 0, n => [n % 10]
  | fuel + 1, n => if n < 10 then [n] else decDigitsF fuel (n / 10) ++ [n % 10]

/-- Digit list of `n` in base 10, most significant first. -/
def decDigits (n : Nat) : List Nat := decDigitsF n n

/-- The character for a decimal digit `d < 10` (ASCII `0`–`9`). -/
def decChar (d : Nat) : Char := Char.ofNat (48 + d)

/-- The characters of the decimal representation of `n`, as Python's
`str(n)` / `"%d" % n` produce. -/
def natDigits (n : Nat) : List Char := (decDigits n).map decChar

/-- Python's `str(n)` for a natural number. -/
def natRepr (n : Nat) : String := String.mk (natDigits n)

/-- Python's `str(i)` for an integer (a `-` sign followed by the digits when
negative). -/
def intRepr (i : Int) : String :=
  if i < 0 then "-" ++ natRepr i.natAbs else natRepr i.natAbs

/-- The character list produced by Python's format spec `03d` on `n`:
the decimal digits, left-padded with `0` to a minimum width of 3.  Values
needing more than 3 digits are never truncated. -/
def pad3List (n : Nat) : List Char :=
  List.replicate (3 - (natDigits n).length) '0' ++ natDigits n

/-- `DEFAULTS["invoice_" ++ "pre" ++ "fix"]` in the script: the stem of every
generated invoice identifier. -/
def invoiceStem : String := "INV"

/-- The identifier the script formats for counter value `n`:
`f"INV-{n:03d}"`. -/
def invoiceId (n : Nat) : String :=
  String.mk (invoiceStem.data ++ '-' :: pad3List n)

/-! ### The persisted sequence counter

`data/invoice-counter.json` either does not exist, or holds bytes that parse
as the JSON object `{"last_number": n}`, or holds bytes that `json.load`
fails on (it then raises and nothing is written).  The three cases are the
three constructors below; the script itself only ever writes
`{"last_number": n}`, which always parses back. -/

/-- State of the persisted counter file. -/
inductive CounterStore where
  /-- The counter file does not exist yet. -/
  | absent
  /-- The counter file exists but `json.load` fails on it. -/
  | corrupt
  /-- The counter file exists and parses as `{"last_number": n}`. -/
  | stored (last_number : Nat)
deriving DecidableEq

/-- Errors surfaced by the script: uncaught Python exceptions and the
early-return error messages.  `dataCorruption` models the `json.JSONDecodeError`
escaping `json.load`; the two `invalid*Literal` constructors model the
`ValueError` of `int(s)` / `float(s)`, carrying the literal the message
echoes; `clientNotFound` models the `Unknown client` early return. -/
inductive PyErr where
  | dataCorruption
  | invalidIntLiteral (lit : String)
  | invalidFloatLiteral (lit : String)
  | clientNotFound (key : String)
deriving DecidableEq

deriving instance DecidableEq for Except

/-- `get_next_invoice_number()`: read the counter (creating `last_number = 0`
when the file is absent), increment, persist, and return the formatted
identifier.  A corrupt file makes `json.load` raise before anything is
written, hence the error with the store unchanged. -/
def get_next_invoice_number (st : CounterStore) : Except PyErr String × CounterStore :=
  match st with
  | .absent => (.ok (invoiceId 1), .stored 1)
  | .corrupt => (.error .dataCorruption, .corrupt)
  | .stored k => (.ok (invoiceId (k + 1)), .stored (k + 1))

/-- `peek_next_invoice_number()`: read-only preview.  When the file exists it
formats `last_number + 1`; when absent it returns the literal `"INV-001"`;
it never writes. -/
def peek_next_invoice_number (st : CounterStore) : Except PyErr String × CounterStore :=
  match st with
  | .absent => (.ok (invoiceStem ++ "-001"), .absent)
  | .corrupt => (.error .dataCorruption, .corrupt)
  | .stored k => (.ok (invoiceId (k + 1)), .stored k)

/-- `last_number` as the script would read it (0 when the file is absent). -/
def lastNumber : CounterStore → Nat
  | .absent => 0
  | .corrupt => 0
  | .stored k => k

/-- `n` successive calls of `get_next_invoice_number()`, returning the list of
results in call order and the final store. -/
def allocSeq : Nat → CounterStore → List (Except PyErr String) × CounterStore
  | 0, st => ([], st)
  | n + 1, st =>
    let r := get_next_invoice_number st
    let rest := allocSeq n r.2
    (r.1 :: rest.1, rest.2)

/-- `n` successive calls of `peek_next_invoice_number()`, returning the list
of results in call order and the final store. -/
def peekN : Nat → CounterStore → List (Except PyErr String) × CounterStore
  | 0, st => ([], st)
  | n + 1, st =>
    let r := peek_next_invoice_number st
    let rest := peekN n r.2
    (r.1 :: rest.1, rest.2)

/-! ### Python string helpers

`str.split(",")`, `str.strip()` and option truthiness, modelled on the
character-list representation of strings.  `strip()` is modelled on the ASCII
whitespace characters recognised by `Char.isWhitespace`. -/

/-- Python's `s.split(sep)` for a one-character separator: splits at every
occurrence, keeping empty pieces (`"".split(",") == [""]`). -/
def splitOnChar (sep : Char) : List Char → List (List Char)
  | [] => [[]]
  | c :: cs =>
    match splitOnChar sep cs with
    | [] => [[]]
    | g :: gs => if c = sep then [] :: g :: gs else (c :: g) :: gs

/-- Python's `s.strip()`: remove whitespace from both ends. -/
def pyStrip (l : List Char) : List Char :=
  (((l.dropWhile Char.isWhitespace).reverse.dropWhile Char.isWhitespace)).reverse

/-- Truthiness of an optional string, as Python's `if x:` sees an
`argparse` value or a dict entry: `None` and `""` are falsy. -/
def pyTruthyS : Option String → Bool
  | none => false
  | some s => !s.isEmpty

/-- Truthiness of an optional list, as Python's `if x:` sees it: `None` and
`[]` are falsy. -/
def pyTruthyL : Option (List String) → Bool
  | none => false
  | some l => !l.isEmpty

/-! ### Python numeric literal parsing

`int(s)` and `float(s)` on stripped text: an optional sign followed by a
digit sequence, with single underscores allowed between digits; `float`
additionally allows a decimal point and an exponent.  The error value carries
the literal echoed by the `ValueError` message.  Idealisations: digits and
whitespace are ASCII, and the non-finite float literals (`inf`, `infinity`,
`nan`, any case) are not modelled — the rationals stand in for the finite
decimals the invoices use. -/

/-- Continuation of a digit run: digits, with each underscore followed by a
digit (Python allows single underscores only between digits). -/
def digitTail : List Char → Bool
  | [] => true
  | ['_'] => false
  | '_' :: c :: cs => c.isDigit && digitTail cs
  | c :: cs => c.isDigit && digitTail cs

/-- A Python `digitpart`: nonempty, starts with a digit, underscores only
between digits. -/
def digitPartOk : List Char → Bool
  | [] => false
  | c :: cs => c.isDigit && digitTail cs

/-- Numeric value of a list of digit characters (underscores removed first
by the callers). -/
def decValOfChars (l : List Char) : Nat :=
  l.foldl (fun a c => a * 10 + (c.toNat - 48)) 0

/-- Value of a `digitpart`, when well-formed. -/
def digitPartVal (l : List Char) : Option Nat :=
  if digitPartOk l then some (decValOfChars (l.filter (fun c => c ≠ '_'))) else none

/-- Body of `int(s)` after stripping: optional sign and a `digitpart`. -/
def intBody : List Char → Option Int
  | '+' :: rest => (digitPartVal rest).map (fun n => (n : Int))
  | '-' :: rest => (digitPartVal rest).map (fun n => -(n : Int))
  | rest => (digitPartVal rest).map (fun n => (n : Int))

/-- Python's `int(s)` (base 10): strips whitespace, then sign and digits;
on failure the `ValueError` echoes the argument. -/
def pyIntParse (l : List Char) : Except PyErr Int :=
  match intBody (pyStrip l) with
  | some v => .ok v
  | none => .error (.invalidIntLiteral (String.mk l))

/-- Split a character list at the first character satisfying `p`; returns the
part before it and, when found, the part after it. -/
def splitOnFirst (p : Char → Bool) : List Char → List Char × Option (List Char)
  | [] => ([], none)
  | c :: cs =>
    if p c then ([], some cs)
    else
      let r := splitOnFirst p cs
      (c :: r.1, r.2)

/-- Value of the mantissa of a float literal: `digitpart`, or
`digitpart "." [digitpart]`, or `"." digitpart`. -/
def mantVal (l : List Char) : Option ℚ :=
  let r := splitOnFirst (fun c => c = '.') l
  match r.2 with
  | none => (digitPartVal r.1).map (fun n => (n : ℚ))
  | some fp =>
    if r.1.isEmpty && fp.isEmpty then none
    else if (r.1.isEmpty || digitPartOk r.1) && (fp.isEmpty || digitPartOk fp) then
      let ipd := r.1.filter (fun c => c ≠ '_')
      let fpd := fp.filter (fun c => c ≠ '_')
      some ((decValOfChars (ipd ++ fpd) : ℚ) / (10 : ℚ) ^ fpd.length)
    else none

/-- Value of the exponent part (after `e`/`E`): optional sign and
`digitpart`; an absent exponent contributes `0`. -/
def expVal : Option (List Char) → Option Int
  | none => some 0
  | some l => intBody l

/-- Magnitude of a float literal: mantissa and optional exponent. -/
def floatMag (l : List Char) : Option ℚ :=
  let r := splitOnFirst (fun c => c = 'e' || c = 'E') l
  match mantVal r.1, expVal r.2 with
  | some m, some e => some (m * (10 : ℚ) ^ e)
  | _, _ => none

/-- Body of `float(s)` after stripping: optional sign and a magnitude. -/
def floatBody : List Char → Option ℚ
  | '+' :: rest => floatMag rest
  | '-' :: rest => (floatMag rest).map (fun q => -q)
  | rest => floatMag rest

/-- Python's `float(s)` on finite decimal literals: strips whitespace, then
sign, mantissa and exponent; on failure the `ValueError` echoes the
argument. -/
def pyFloatParse (l : List Char) : Except PyErr ℚ :=
  match floatBody (pyStrip l) with
  | some v => .ok v
  | none => .error (.invalidFloatLiteral (String.mk l))

/-! ### Line items and `parse_item_string` -/

/-- One line item, as the dicts `{"service", "date", "quantity", "rate"}` the
script builds: `quantity` comes from `int(...)`, `rate` from `float(...)`
(modelled as an exact rational). -/
structure Item where
  service : String
  date : String
  quantity : Int
  rate : ℚ
deriving DecidableEq

/-- `quantity * rate`, the per-row total the renderer computes. -/
def lineTotal (it : Item) : ℚ := (it.quantity : ℚ) * it.rate

/-- The fields `parse_item_string` works on: split the input on commas,
strip each piece, and extend with empty strings up to 4 pieces (extra pieces
beyond the fourth are left in place and ignored by the indexing). -/
def fieldsOf (s : String) : List (List Char) :=
  let parts := (splitOnChar ',' s.data).map pyStrip
  if parts.length < 4 then parts ++ List.replicate (4 - parts.length) [] else parts

/-- `parts[2]` of `parse_item_string`. -/
def quantityField (s : String) : List Char := (fieldsOf s).getD 2 []

/-- `parts[3]` of `parse_item_string`. -/
def rateField (s : String) : List Char := (fieldsOf s).getD 3 []

/-- `parse_item_string(item_str)`: parse `"service,date,quantity,rate"` into
an item.  Quantity is `int(parts[2])` when that field is nonempty, else 1;
rate is `float(parts[3].replace("$", ""))` when `parts[3]` is nonempty, else
0.  The dict literal evaluates quantity before rate, so a malformed quantity
raises first. -/
def parse_item_string (s : String) : Except PyErr Item :=
  let parts := fieldsOf s
  match (if (quantityField s).isEmpty then Except.ok 1 else pyIntParse (quantityField s)) with
  | .error e => .error e
  | .ok q =>
    match (if (rateField s).isEmpty then Except.ok 0 else
        pyFloatParse ((rateField s).filter (fun c => c ≠ '$'))) with
    | .error e => .error e
    | .ok r =>
      .ok { service := String.mk (parts.getD 0 [])
            date := String.mk (parts.getD 1 [])
            quantity := q
            rate := r }

/-- The item parser as §4.3 of the specification words it: the same four
logical fields, quantity as integer (default 1 when empty), and the rate
field stripped of currency symbols and thousands separators before decimal
parsing (default 0 when empty).  Stated for comparison with
`parse_item_string`. -/
def parse_item_string_asSpec (s : String) : Except PyErr Item :=
  let parts := fieldsOf s
  match (if (quantityField s).isEmpty then Except.ok 1 else pyIntParse (quantityField s)) with
  | .error e => .error e
  | .ok q =>
    match (if (rateField s).isEmpty then Except.ok 0 else
        pyFloatParse ((rateField s).filter (fun c => c ≠ '$' && c ≠ ','))) with
    | .error e => .error e
    | .ok r =>
      .ok { service := String.mk (parts.getD 0 [])
            date := String.mk (parts.getD 1 [])
            quantity := q
            rate := r }

/-- The list comprehension `[parse_item_string(i) for i in args.item]`:
items are parsed left to right and the first `ValueError` aborts the whole
invocation. -/
def parseItems : List String → Except PyErr (List Item)
  | [] => .ok []
  | s :: rest =>
    match parse_item_string s with
    | .error e => .error e
    | .ok it =>
      match parseItems rest with
      | .error e => .error e
      | .ok its => .ok (it :: its)

/-! ### Money formatting and the rendered table

Each money cell is `f"${v:.0f}" if v == int(v) else f"${v:.2f}"`.  `int(v)`
truncates toward zero; the format specs round half-to-even, modelled here on
exact decimals. -/

/-- Python's `int(v)` on a number: truncation toward zero, computed on the
reduced numerator and denominator. -/
def pyTrunc (v : ℚ) : Int := Int.tdiv v.num (v.den : Int)

/-- Round to the nearest integer, ties to even, as the `f`-format specs do
(idealised to exact decimal arithmetic).  `f` is `⌊v⌋` (the denominator is
positive, so flooring division computes it), and the comparison of the
fractional part against 1/2 is done on twice its numerator. -/
def roundHE (v : ℚ) : Int :=
  let f := Int.fdiv v.num (v.den : Int)
  let r2 := 2 * (v.num - f * (v.den : Int))
  if r2 < (v.den : Int) then f
  else if (v.den : Int) < r2 then f + 1
  else if f % 2 = 0 then f else f + 1

/-- Python's `f"{v:.0f}"`: the rounded value with no decimal point. -/
def fmtDot0 (v : ℚ) : String := intRepr (roundHE v)

/-- Python's `f"{v:.2f}"`: the value rounded to hundredths, with exactly two
digits after the decimal point. -/
def fmtDot2 (v : ℚ) : String :=
  let c := roundHE (v * 100)
  let a := c.natAbs
  let frs := if a % 100 < 10 then "0" ++ natRepr (a % 100) else natRepr (a % 100)
  let core := natRepr (a / 100) ++ "." ++ frs
  if c < 0 then "-" ++ core else core

/-- One money cell: `f"${v:.0f}" if v == int(v) else f"${v:.2f}"`.  The
test `v == int(v)` holds exactly when `v` is a whole number, i.e. when the
reduced denominator is 1. -/
def moneyStr (v : ℚ) : String :=
  if v.den = 1 then "$" ++ fmtDot0 v else "$" ++ fmtDot2 v

/-- The header row the script appends first: note the literal
`"Services"`. -/
def headerRow : List String := ["Services", "Date", "Quantity", "Rate", "Total"]

/-- One body row of the table: service, date, `str(quantity)`, the rate cell
and the row-total cell. -/
def itemRow (it : Item) : List String :=
  [it.service, it.date, intRepr it.quantity, moneyStr it.rate, moneyStr (lineTotal it)]

/-- `grand_total`, accumulated across the loop exactly as the script does. -/
def grandTotal (items : List Item) : ℚ :=
  items.foldl (fun acc it => acc + lineTotal it) 0

/-- `table_data` as `generate_pdf` builds it: header, one row per item, and
the final `Total` row with blank middle cells and the grand total. -/
def buildTable (items : List Item) : List (List String) :=
  headerRow :: items.map itemRow ++ [["Total", "", "", "", moneyStr (grandTotal items)]]

/-! ### The invoice record and the rendered document -/

/-- The invoice dict, with the nested `from`/`to` dicts flattened into
prefixed fields.  `invoice_number` is `None` or a string; the optional string
fields hold `""` for "absent", as the script's dict does. -/
structure Invoice where
  invoice_number : Option String
  title : String
  date : String
  from_name : String
  from_email : String
  to_name : String
  to_company : String
  items : List Item
  payment_method : String
  notes : String
deriving DecidableEq

/-- `create_empty_invoice()`, with `datetime.now().strftime("%B %d, %Y")`
passed in as `today`.  The default strings are the `DEFAULTS` dict of the
script (including its mojibake dash). -/
def create_empty_invoice (today : String) : Invoice :=
  { invoice_number := none
    title := ""
    date := today
    from_name := "Adam Luck"
    from_email := "adamluckydo@gmail.com"
    to_name := ""
    to_company := ""
    items := []
    payment_method := "PayPal â€“ adamluckydo@gmail.com"
    notes := "" }

/-- The content `generate_pdf` lays out, in layout order, with the reportlab
styling stripped: the optional `Invoice #:` line, title, date line, sender
block, recipient block (company line only when truthy), the table, the
payment line, and the optional notes line. -/
structure Doc where
  invoice_number_line : Option String
  title : String
  date_line : String
  from_name : String
  from_email : String
  to_name : String
  to_company_line : Option String
  table : List (List String)
  payment_line : String
  notes_line : Option String
deriving DecidableEq

/-- `generate_pdf(invoice, ...)` as a pure function from the record to the
document content it writes. -/
def generate_pdf (inv : Invoice) : Doc :=
  { invoice_number_line :=
      if pyTruthyS inv.invoice_number then
        some ("Invoice #: " ++ inv.invoice_number.getD "")
      else none
    title := inv.title
    date_line := "Date: " ++ inv.date
    from_name := inv.from_name
    from_email := inv.from_email
    to_name := inv.to_name
    to_company_line := if inv.to_company.isEmpty then none else some inv.to_company
    table := buildTable inv.items
    payment_line := "Payment Method: " ++ inv.payment_method
    notes_line := if inv.notes.isEmpty then none else some inv.notes }

/-! ### CLI arguments and the rendering pipeline of `main()` -/

/-- The `argparse` values that feed the rendering pipeline.  `from_json`
stands for the already-parsed content of the `--from-json` file, and
`toArg` models `args.to` (`to` is reserved in Lean).  The client-management
flags (`--list-clients`, `--save-client`, `--delete-client`) make `main`
return before this pipeline and are outside this model. -/
structure Args where
  from_json : Option Invoice := none
  title : Option String := none
  date : Option String := none
  toArg : Option String := none
  to_company : Option String := none
  from_name : Option String := none
  from_email : Option String := none
  item : Option (List String) := none
  payment : Option String := none
  notes : Option String := none
  output : Option String := none
  invoice_number : Option String := none
  no_number : Bool := false
  client : Option String := none

/-- A saved client profile (`clients.json` values), with the `.get(..., "")`
defaults already applied. -/
structure ClientRec where
  name : String := ""
  company : String := ""
deriving DecidableEq

/-- Lookup in the loaded client store. -/
def lookupClient (clients : List (String × ClientRec)) (key : String) : Option ClientRec :=
  (clients.find? (fun p => p.1 = key)).map (fun p => p.2)

/-- Lines 507–512 of the script, the invoice-number policy:
`if args.no_number: ... = None`, `elif args.invoice_number: ... = args.invoice_number`,
`elif not invoice.get("invoice_number"): ... = get_next_invoice_number()`. -/
def resolve_invoice_number (no_number : Bool) (manual : Option String)
    (inv : Invoice) (st : CounterStore) : Except PyErr Invoice × CounterStore :=
  if no_number then (.ok { inv with invoice_number := none }, st)
  else if pyTruthyS manual then (.ok { inv with invoice_number := manual }, st)
  else if !(pyTruthyS inv.invoice_number) then
    match get_next_invoice_number st with
    | (.ok s, st2) => (.ok { inv with invoice_number := some s }, st2)
    | (.error e, st2) => (.error e, st2)
  else (.ok inv, st)

/-- The filename sanitisation of `main`: keep alphanumerics (ASCII here;
Python's `isalnum` is Unicode-aware), spaces, hyphens and underscores, then
turn spaces into hyphens. -/
def safeTitle (t : String) : String :=
  String.mk ((t.data.filter (fun c => c.isAlphanum || c = ' ' || c = '-' || c = '_')).map
    (fun c => if c = ' ' then '-' else c))

/-- The derived output path: `args.output` when truthy, else the sanitised
title with the invoice number as a leading component when one is present. -/
def outputPath (args : Args) (inv : Invoice) : String :=
  if pyTruthyS args.output then args.output.getD ""
  else if pyTruthyS inv.invoice_number then
    inv.invoice_number.getD "" ++ "-" ++ safeTitle inv.title ++ ".pdf"
  else safeTitle inv.title ++ ".pdf"

/-- The CLI branch of `main` (lines 472–501): start from the empty record,
fill from the selected client profile, then apply each truthy override, then
parse the `--item` strings. -/
def buildFromArgs (args : Args) (clients : List (String × ClientRec)) (today : String) :
    Except PyErr Invoice :=
  let inv0 := create_empty_invoice today
  match (if pyTruthyS args.client then
      match lookupClient clients (args.client.getD "") with
      | none => Except.error (PyErr.clientNotFound (args.client.getD ""))
      | some c => Except.ok { inv0 with to_name := c.name, to_company := c.company }
    else Except.ok inv0) with
  | .error e => .error e
  | .ok inv1 =>
    let inv2 := if pyTruthyS args.title then { inv1 with title := args.title.getD "" } else inv1
    let inv3 := if pyTruthyS args.date then { inv2 with date := args.date.getD "" } else inv2
    let inv4 := if pyTruthyS args.toArg then { inv3 with to_name := args.toArg.getD "" } else inv3
    let inv5 := if pyTruthyS args.to_company then
        { inv4 with to_company := args.to_company.getD "" } else inv4
    let inv6 := if pyTruthyS args.from_name then
        { inv5 with from_name := args.from_name.getD "" } else inv5
    let inv7 := if pyTruthyS args.from_email then
        { inv6 with from_email := args.from_email.getD "" } else inv6
    match (match args.item with
      | some l => if l.isEmpty then Except.ok inv7 else
          match parseItems l with
          | .ok its => Except.ok { inv7 with items := its }
          | .error e => Except.error e
      | none => Except.ok inv7) with
    | .error e => .error e
    | .ok inv8 =>
      let inv9 := if pyTruthyS args.payment then
          { inv8 with payment_method := args.payment.getD "" } else inv8
      .ok (if pyTruthyS args.notes then { inv9 with notes := args.notes.getD "" } else inv9)

/-- The tail of `main` after the record is assembled: resolve the invoice
number, derive the output path, and render. -/
def finishInvoice (args : Args) (inv : Invoice) (st : CounterStore) :
    Except PyErr (Doc × String) × CounterStore :=
  match resolve_invoice_number args.no_number args.invoice_number inv st with
  | (.error e, st2) => (.error e, st2)
  | (.ok inv2, st2) => (.ok (generate_pdf inv2, outputPath args inv2), st2)

/-- The rendering pipeline of `main()`: JSON input, else the CLI branch when
a truthy `--title`/`--item`/`--client` is present, else the interactive
prompt flow, which performs terminal I/O and is out of this model's scope
(`none`).  The result carries the written document with its path, or the
error that aborted the invocation, together with the final counter store. -/
def runMain (args : Args) (clients : List (String × ClientRec)) (today : String)
    (st : CounterStore) : Option (Except PyErr (Doc × String) × CounterStore) :=
  match args.from_json with
  | some inv => some (finishInvoice args inv st)
  | none =>
    if pyTruthyS args.title || pyTruthyL args.item || pyTruthyS args.client then
      some (match buildFromArgs args clients today with
        | .ok inv => finishInvoice args inv st
        | .error e => (.error e, st))
    else none

/-- Does an `Except` hold a value? -/
def exOk : Except PyErr α → Bool
  | .ok _ => true
  | .error _ => false

/-- Concrete arguments used to exhibit an invocation that reaches the
allocator: a title and one well-formed item, no numbering flags. -/
def argsPlain : Args :=
  { title := some "Consulting work", item := some ["Consulting,Jan,1,150"] }

/-- Concrete arguments with a title and no items. -/
def argsNoItems : Args :=
  { title := some "Consulting services", no_number := true }

/-- Concrete arguments with one item and no title. -/
def argsNoTitle : Args :=
  { item := some ["Consulting,Jan 1-15,1,150"], no_number := true }

/-- Concrete arguments supplying both `--no-number` and `--invoice-number`. -/
def argsBothFlags (num : String) : Args :=
  { title := some "Invoice for Consulting", item := some ["Consulting,Jan 1-15,10,150"],
    invoice_number := some num, no_number := true }

/-! ### Lemmas about the decimal rendering -/

theorem decDigitsF_congr : ∀ f1 f2 n : Nat, n ≤ f1 → n ≤ f2 →
    decDigitsF f1 n = decDigitsF f2 n := by
  intro f1
  induction f1 with
  | zero =>
    intro f2 n h1 _
    have hn : n = 0 := Nat.le_zero.mp h1
    subst hn
    cases f2 with
    | zero => rfl
    | succ j => simp [decDigitsF]
  | succ k ih =>
    intro f2 n h1 h2
    cases f2 with
    | zero =>
      have hn : n = 0 := Nat.le_zero.mp h2
      subst hn
      simp [decDigitsF]
    | succ j =>
      by_cases h : n < 10
      · simp [decDigitsF, h]
      · have hd : n / 10 < n := Nat.div_lt_self (by omega) (by omega)
        simp only [decDigitsF, if_neg h]
        rw [ih j (n / 10) (by omega) (by omega)]

theorem decDigits_eq (n : Nat) :
    decDigits n = if n < 10 then [n] else decDigits (n / 10) ++ [n % 10] := by
  by_cases h : n < 10
  · cases n with
    | zero => simp [decDigits, decDigitsF, h]
    | succ m => simp [decDigits, decDigitsF, h]
  · cases n with
    | zero => omega
    | succ m =>
      have hd : (m + 1) / 10 < m + 1 := Nat.div_lt_self (by omega) (by omega)
      show decDigitsF (m + 1) (m + 1) = _
      simp only [decDigitsF, if_neg h]
      rw [decDigitsF_congr m ((m + 1) / 10) ((m + 1) / 10) (by omega) (Nat.le_refl _)]
      rfl

/-- Value of a digit list, most significant first. -/
def decVal (l : List Nat) : Nat := l.foldl (fun a d => a * 10 + d) 0

theorem decVal_append_single (l : List Nat) (d : Nat) :
    decVal (l ++ [d]) = 10 * decVal l + d := by
  simp [decVal, List.foldl_append]
  omega

theorem decVal_decDigits (n : Nat) : decVal (decDigits n) = n := by
  induction n using Nat.strong_induction_on with
  | _ n ih =>
    rw [decDigits_eq]
    by_cases h : n < 10
    · simp [decVal, h]
    · have hd : n / 10 < n := Nat.div_lt_self (by omega) (by omega)
      simp only [if_neg h, decVal_append_single, ih (n / 10) hd]
      omega

theorem decDigits_injective : Function.Injective decDigits := by
  intro a b h
  have := congrArg decVal h
  rwa [decVal_decDigits, decVal_decDigits] at this

theorem decDigits_lt_ten (n : Nat) : ∀ d ∈ decDigits n, d < 10 := by
  induction n using Nat.strong_induction_on with
  | _ n ih =>
    rw [decDigits_eq]
    by_cases h : n < 10
    · simp [h]
    · have hd : n / 10 < n := Nat.div_lt_self (by omega) (by omega)
      simp only [if_neg h, List.mem_append, List.mem_singleton]
      intro d hdm
      rcases hdm with hd1 | hd2
      · exact ih (n / 10) hd d hd1
      · omega

theorem decDigits_ne_nil (n : Nat) : decDigits n ≠ [] := by
  rw [decDigits_eq]
  by_cases h : n < 10
  · simp [h]
  · simp [h]

theorem decDigits_head_pos (n : Nat) (hn : 1 ≤ n) :
    ∃ d t, decDigits n = d :: t ∧ 1 ≤ d ∧ d < 10 := by
  induction n using Nat.strong_induction_on with
  | _ n ih =>
    rw [decDigits_eq]
    by_cases h : n < 10
    · exact ⟨n, [], by simp [h], hn, h⟩
    · have hd : n / 10 < n := Nat.div_lt_self (by omega) (by omega)
      have hq : 1 ≤ n / 10 := by
        have := Nat.div_le_div_right (c := 10) (Nat.le_of_not_lt h)
        simpa using this
      obtain ⟨d, t, he, h1, h2⟩ := ih (n / 10) hd hq
      exact ⟨d, t ++ [n % 10], by simp [h, he], h1, h2⟩

theorem decDigits_length_pos (n : Nat) : 1 ≤ (decDigits n).length := by
  cases he : decDigits n with
  | nil => exact absurd he (decDigits_ne_nil n)
  | cons a t => simp

theorem decDigits_length_step (n : Nat) (h : 10 ≤ n) :
    (decDigits n).length = (decDigits (n / 10)).length + 1 := by
  rw [decDigits_eq, if_neg (by omega)]
  simp

theorem decDigits_length_ge (k : Nat) : ∀ n, 10 ^ k ≤ n → k + 1 ≤ (decDigits n).length := by
  induction k with
  | zero => intro n _; simpa using decDigits_length_pos n
  | succ j ih =>
    intro n hn
    have h10 : 10 ≤ n := by
      refine le_trans ?_ hn
      calc (10 : Nat) = 10 ^ 1 := (pow_one 10).symm
        _ ≤ 10 ^ (j + 1) := Nat.pow_le_pow_right (by omega) (by omega)
    have hq : 10 ^ j ≤ n / 10 := by
      rw [Nat.le_div_iff_mul_le (by omega)]
      calc 10 ^ j * 10 = 10 ^ (j + 1) := by ring
        _ ≤ n := hn
    rw [decDigits_length_step n h10]
    exact Nat.succ_le_succ (ih (n / 10) hq)

theorem decDigits_length_le (k : Nat) (hk : 1 ≤ k) :
    ∀ n, n < 10 ^ k → (decDigits n).length ≤ k := by
  induction k with
  | zero => omega
  | succ j ih =>
    intro n hn
    by_cases h : n < 10
    · rw [decDigits_eq, if_pos h]
      simp
    · have hj : 1 ≤ j := by
        by_contra hj
        have : j = 0 := by omega
        subst this
        simp at hn
        omega
      have hq : n / 10 < 10 ^ j := by
        rw [Nat.div_lt_iff_lt_mul (by omega)]
        calc n < 10 ^ (j + 1) := hn
          _ = 10 ^ j * 10 := by ring
      rw [decDigits_length_step n (by omega)]
      exact Nat.succ_le_succ (ih hj (n / 10) hq)

theorem decChar_inj_digits : ∀ a b : Fin 10, decChar a.val = decChar b.val → a = b := by
  decide

theorem decChar_ne_zeroChar : ∀ d : Fin 10, 1 ≤ d.val → decChar d.val ≠ '0' := by
  decide

theorem map_decChar_inj : ∀ A B : List Nat, (∀ d ∈ A, d < 10) → (∀ d ∈ B, d < 10) →
    A.map decChar = B.map decChar → A = B := by
  intro A
  induction A with
  | nil =>
    intro B _ _ h
    cases B with
    | nil => rfl
    | cons b bs => simp at h
  | cons a as ih =>
    intro B hA hB h
    cases B with
    | nil => simp at h
    | cons b bs =>
      simp only [List.map_cons, List.cons.injEq] at h
      have ha : a < 10 := hA a (by simp)
      have hb : b < 10 := hB b (by simp)
      have hab : a = b := congrArg Fin.val (decChar_inj_digits ⟨a, ha⟩ ⟨b, hb⟩ h.1)
      rw [hab, ih bs (fun d hd => hA d (by simp [hd])) (fun d hd => hB d (by simp [hd])) h.2]

theorem natDigits_injective : Function.Injective natDigits := by
  intro a b h
  exact decDigits_injective
    (map_decChar_inj _ _ (decDigits_lt_ten a) (decDigits_lt_ten b) h)

theorem natDigits_length_pos (n : Nat) : 1 ≤ (natDigits n).length := by
  simpa [natDigits] using decDigits_length_pos n

theorem natDigits_head_ne_zero (n : Nat) (hn : 1 ≤ n) :
    ∃ c t, natDigits n = c :: t ∧ c ≠ '0' := by
  obtain ⟨d, t, he, h1, h2⟩ := decDigits_head_pos n hn
  exact ⟨decChar d, t.map decChar, by simp [natDigits, he],
    decChar_ne_zeroChar ⟨d, h2⟩ h1⟩

theorem natDigits_length_ge_two (n : Nat) (h : 2 ≤ (natDigits n).length) : 1 ≤ n := by
  by_contra hn
  have : n = 0 := by omega
  subst this
  have : decDigits 0 = [0] := by rw [decDigits_eq]; simp
  simp [natDigits, this] at h

theorem pad3List_length (n : Nat) :
    (pad3List n).length = max 3 (natDigits n).length := by
  simp [pad3List]
  omega

theorem pad3List_inj_aux (a b : Nat)
    (hlt : (natDigits a).length < (natDigits b).length)
    (h : pad3List a = pad3List b) : False := by
  have la1 : 1 ≤ (natDigits a).length := natDigits_length_pos a
  have hlen : (pad3List a).length = (pad3List b).length := congrArg List.length h
  rw [pad3List_length, pad3List_length] at hlen
  have hb3 : (natDigits b).length ≤ 3 := by omega
  have hdropped := congrArg (List.drop (3 - (natDigits b).length)) h
  rw [pad3List, pad3List, List.drop_append_eq_append_drop, List.drop_append_eq_append_drop,
    List.drop_replicate, List.drop_replicate] at hdropped
  rw [List.length_replicate, List.length_replicate] at hdropped
  have e1 : 3 - (natDigits b).length - (3 - (natDigits a).length) = 0 := by omega
  have e2 : 3 - (natDigits b).length - (3 - (natDigits b).length) = 0 := by omega
  simp only [e1, e2, List.drop_zero, List.replicate_zero, List.nil_append] at hdropped
  obtain ⟨c, t, he, hc⟩ := natDigits_head_ne_zero b
    (natDigits_length_ge_two b (by omega))
  rcases hrep : (3 - (natDigits a).length) - (3 - (natDigits b).length) with _ | m
  · omega
  · rw [hrep, he, List.replicate_succ] at hdropped
    have hhd := congrArg List.head? hdropped
    simp only [List.cons_append, List.head?_cons, Option.some.injEq] at hhd
    exact hc hhd.symm

theorem pad3List_injective : Function.Injective pad3List := by
  intro a b h
  rcases Nat.lt_trichotomy (natDigits a).length (natDigits b).length with hlt | heq | hgt
  · exact absurd h (fun hh => pad3List_inj_aux a b hlt hh)
  · have := List.append_inj h (by rw [List.length_replicate, List.length_replicate, heq])
    exact natDigits_injective this.2
  · exact absurd h.symm (fun hh => pad3List_inj_aux b a hgt hh)

theorem invoiceId_injective : Function.Injective invoiceId := by
  intro a b h
  have hdata : invoiceStem.data ++ '-' :: pad3List a
      = invoiceStem.data ++ '-' :: pad3List b := by
    have := congrArg String.data h
    simpa [invoiceId] using this
  have := List.append_cancel_left hdata
  simp only [List.cons.injEq] at this
  exact pad3List_injective this.2

/-! ### Counter sequence lemmas and the counter claims -/

theorem allocSeq_stored (n : Nat) : ∀ k : Nat,
    allocSeq n (.stored k)
      = ((List.range n).map (fun i => Except.ok (invoiceId (k + 1 + i))), .stored (k + n)) := by
  induction n with
  | zero => intro k; simp [allocSeq]
  | succ n ih =>
    intro k
    simp only [allocSeq, get_next_invoice_number]
    rw [ih (k + 1)]
    refine Prod.ext ?_ (by simp; omega)
    simp only [List.range_succ_eq_map, List.map_cons, List.map_map]
    refine congrArg₂ List.cons (by rw [Nat.add_zero]) ?_
    refine List.map_congr_left (fun i _ => ?_)
    simp only [Function.comp]
    rw [show k + 1 + 1 + i = k + 1 + (i + 1) by omega]

theorem invoiceId_succ_injective : Function.Injective (fun i : Nat => invoiceId (i + 1)) := by
  intro x y h
  have := invoiceId_injective h
  omega

/-- C1: starting from an absent counter store, N successive allocations
return exactly the identifiers for counter values 1 through N, in order and
pairwise distinct, and leave `last_number = N` persisted.  The identifier for
`n` is the `INV-` stem with the digits of `n` zero-padded to at least 3
places; from 1000 on, the width grows with the digits and nothing is
truncated. -/
theorem alloc_sequence_from_fresh (N : Nat) (hN : 1 ≤ N) :
    allocSeq N .absent
      = ((List.range N).map (fun i => Except.ok (invoiceId (i + 1))), .stored N)
  ∧ ((List.range N).map (fun i => invoiceId (i + 1))).Nodup
  ∧ (∀ n : Nat, (pad3List n).length = max 3 (natDigits n).length)
  ∧ (∀ n : Nat, 1000 ≤ n → pad3List n = natDigits n ∧ 4 ≤ (natDigits n).length) := by
  refine ⟨?_, ?_, pad3List_length, ?_⟩
  · cases N with
    | zero => omega
    | succ M =>
      simp only [allocSeq, get_next_invoice_number]
      rw [allocSeq_stored M 1]
      refine Prod.ext ?_ (by simp; omega)
      simp only [List.range_succ_eq_map, List.map_cons, List.map_map]
      refine congrArg₂ List.cons rfl ?_
      refine List.map_congr_left (fun i _ => ?_)
      simp only [Function.comp]
      rw [show 1 + 1 + i = i + 1 + 1 by omega]
  · exact (List.nodup_range N).map invoiceId_succ_injective
  · intro n hn
    have hlen : 4 ≤ (natDigits n).length := by
      have := decDigits_length_ge 3 n (by norm_num; omega)
      simpa [natDigits] using this
    refine ⟨?_, hlen⟩
    simp [pad3List, show 3 - (natDigits n).length = 0 by omega]

theorem alloc_sequence_from_fresh_w :
    allocSeq 2 .absent
      = ([Except.ok (invoiceId 1), Except.ok (invoiceId 2)], .stored 2) := by
  have h := (alloc_sequence_from_fresh 2 (by decide)).1
  simpa [List.range_succ] using h

theorem peekN_const (m : Nat) (st : CounterStore) (v : Except PyErr String)
    (h : peek_next_invoice_number st = (v, st)) :
    peekN m st = (List.replicate m v, st) := by
  induction m with
  | zero => simp [peekN]
  | succ m ih => simp [peekN, h, ih, List.replicate_succ]

/-- C3: for any non-corrupt persisted counter state, `peek` returns the
identifier formatted for `last_number + 1` (with `last_number = 0` when the
store is absent) and returns the store unchanged; any number of peeks yields
the same value, leaves the store unchanged, and does not change what the
next allocation returns. -/
theorem peek_pure_and_correct (st : CounterStore) (m : Nat) (h : st ≠ .corrupt) :
    peek_next_invoice_number st = (.ok (invoiceId (lastNumber st + 1)), st)
  ∧ peekN m st = (List.replicate m (Except.ok (invoiceId (lastNumber st + 1))), st)
  ∧ get_next_invoice_number (peekN m st).2 = get_next_invoice_number st := by
  have h1 : peek_next_invoice_number st = (.ok (invoiceId (lastNumber st + 1)), st) := by
    cases st with
    | corrupt => exact absurd rfl h
    | absent => decide
    | stored k => rfl
  refine ⟨h1, peekN_const m st _ h1, ?_⟩
  rw [peekN_const m st _ h1]

theorem peek_pure_and_correct_w :
    peek_next_invoice_number (.stored 41) = (.ok (invoiceId 42), .stored 41)
  ∧ peekN 3 (.stored 41) = (List.replicate 3 (Except.ok (invoiceId 42)), .stored 41)
  ∧ get_next_invoice_number (peekN 3 (.stored 41)).2
      = get_next_invoice_number (.stored 41) :=
  peek_pure_and_correct (.stored 41) 3 (by decide)

/-- C4: on a corrupt counter file both the allocator and the peek fail with
the data-corruption error, the persisted state is left exactly as it was (in
particular it is never reset to any stored value, let alone 0), and a
rendering invocation that reaches the allocator aborts with that error
without producing a document. -/
theorem corrupt_store_aborts_unchanged :
    get_next_invoice_number .corrupt = (.error .dataCorruption, .corrupt)
  ∧ peek_next_invoice_number .corrupt = (.error .dataCorruption, .corrupt)
  ∧ (∀ k : Nat, (get_next_invoice_number .corrupt).2 ≠ .stored k)
  ∧ (∀ k : Nat, (peek_next_invoice_number .corrupt).2 ≠ .stored k)
  ∧ runMain argsPlain [] "May 5, 2025" .corrupt
      = some (.error .dataCorruption, .corrupt) := by
  refine ⟨rfl, rfl, fun k => by simp [get_next_invoice_number],
    fun k => by simp [peek_next_invoice_number], by decide⟩

/-! ### The invoice-number policy (C2, C10) -/

/-- C2, counterexample: when both `--no-number` and an explicit
`--invoice-number` are supplied, the explicit number is not used verbatim —
the field comes out absent, refuting the mode "explicit number supplied →
used verbatim" on this input. -/
theorem number_policy_explicit_not_verbatim_cex :
    (resolve_invoice_number true (some "INV-999")
        (create_empty_invoice "May 5, 2025") .absent).1
      = .ok { create_empty_invoice "May 5, 2025" with invoice_number := none }
  ∧ ({ create_empty_invoice "May 5, 2025" with
        invoice_number := none } : Invoice).invoice_number ≠ some "INV-999" := by
  exact ⟨rfl, by decide⟩

/-- C2, amended: the policy is resolved last with the checks in the code's
order — the no-number flag wins, then a truthy explicit number is used
verbatim, then a record that already carries a truthy invoice number (only
possible via `--from-json`) keeps it without touching the counter, and only
otherwise is the allocator called, exactly once, its result and store update
becoming the record's. -/
theorem number_policy_resolution (nn : Bool) (manual : Option String)
    (inv : Invoice) (st : CounterStore) :
    (nn = true →
      resolve_invoice_number nn manual inv st = (.ok { inv with invoice_number := none }, st))
  ∧ (nn = false → pyTruthyS manual = true →
      resolve_invoice_number nn manual inv st = (.ok { inv with invoice_number := manual }, st))
  ∧ (nn = false → pyTruthyS manual = false → pyTruthyS inv.invoice_number = true →
      resolve_invoice_number nn manual inv st = (.ok inv, st))
  ∧ (nn = false → pyTruthyS manual = false → pyTruthyS inv.invoice_number = false →
      ∀ r st2, get_next_invoice_number st = (r, st2) →
      resolve_invoice_number nn manual inv st
        = (match r with
            | .ok s => .ok { inv with invoice_number := some s }
            | .error e => .error e, st2)) := by
  refine ⟨?_, ?_, ?_, ?_⟩
  · intro h; subst h; simp [resolve_invoice_number]
  · intro h hm; subst h; simp [resolve_invoice_number, hm]
  · intro h hm hi; subst h; simp [resolve_invoice_number, hm, hi]
  · intro h hm hi r st2 hg
    subst h
    simp only [resolve_invoice_number, hm, hi, Bool.false_eq_true, if_false,
      Bool.not_false, if_true, hg]
    cases r with
    | ok s => rfl
    | error e => rfl

theorem number_policy_resolution_w :
    resolve_invoice_number false none (create_empty_invoice "May 5, 2025") .absent
      = (.ok { create_empty_invoice "May 5, 2025" with invoice_number := some (invoiceId 1) },
         .stored 1) := by
  have h := (number_policy_resolution false none
    (create_empty_invoice "May 5, 2025") .absent).2.2.2 rfl (by decide) (by decide)
    (.ok (invoiceId 1)) (.stored 1) rfl
  exact h

/-- C10: with both `--no-number` and `--invoice-number` supplied, the
no-number flag takes precedence: the rendered record carries no invoice
number (no `Invoice #:` line), the counter store is neither read (the
outcome is the same for every store) nor changed, and the output filename is
the sanitised title alone with no number component. -/
theorem no_number_flag_precedence (num : String) (st st2 : CounterStore) :
    (∃ d : Doc, runMain (argsBothFlags num) [] "May 5, 2025" st
        = some (.ok (d, "Invoice-for-Consulting.pdf"), st)
      ∧ d.invoice_number_line = none)
  ∧ (runMain (argsBothFlags num) [] "May 5, 2025" st).map (fun p => p.1)
      = (runMain (argsBothFlags num) [] "May 5, 2025" st2).map (fun p => p.1) := by
  exact ⟨⟨_, rfl, rfl⟩, rfl⟩

/-! ### Builder validation (C7) -/

/-- C7, counterexample: an invocation with a title and zero line items is
not rejected before rendering — it succeeds and writes a document whose
table has only the header and the Total row.  The claimed title/line-item
validation with a ValidationError does not exist in the code. -/
theorem renders_without_validation_cex :
    runMain argsNoItems [] "May 5, 2025" .absent
      = some (.ok
          ({ invoice_number_line := none
             title := "Consulting services"
             date_line := "Date: May 5, 2025"
             from_name := "Adam Luck"
             from_email := "adamluckydo@gmail.com"
             to_name := ""
             to_company_line := none
             table := [["Services", "Date", "Quantity", "Rate", "Total"],
                       ["Total", "", "", "", "$0"]]
             payment_line := "Payment Method: PayPal â€“ adamluckydo@gmail.com"
             notes_line := none },
           "Consulting-services.pdf"), .absent) := by
  decide

/-- C7, amended: the code performs no pre-render validation of the title or
of the item count.  A CLI invocation with a title and no items renders a
document whose table is just the header and the Total row, and one with
items and no title renders a document with an empty title whose derived
filename is `.pdf`.  (Only the interactive prompt loop insists on at least
one item.) -/
theorem no_builder_validation (st : CounterStore) :
    (∃ d : Doc, runMain argsNoItems [] "May 5, 2025" st
        = some (.ok (d, "Consulting-services.pdf"), st)
      ∧ d.table = [headerRow, ["Total", "", "", "", "$0"]])
  ∧ (∃ d : Doc, runMain argsNoTitle [] "May 5, 2025" st
        = some (.ok (d, ".pdf"), st)
      ∧ d.title = "") := by
  exact ⟨⟨_, rfl, by decide⟩, ⟨_, rfl, rfl⟩⟩

/-! ### Item-string parsing (C5) -/

theorem splitOnChar_ne_nil (sep : Char) (l : List Char) : splitOnChar sep l ≠ [] := by
  induction l with
  | nil => simp [splitOnChar]
  | cons c cs ih =>
    simp only [splitOnChar]
    rcases h : splitOnChar sep cs with _ | ⟨g, gs⟩
    · simp
    · by_cases hc : c = sep <;> simp [hc]

theorem splitOnChar_sep_not_mem (sep : Char) (l : List Char) :
    ∀ g ∈ splitOnChar sep l, sep ∉ g := by
  induction l with
  | nil =>
    intro g hg
    simp only [splitOnChar, List.mem_singleton] at hg
    subst hg
    simp
  | cons c cs ih =>
    intro g hg
    rcases h : splitOnChar sep cs with _ | ⟨g0, gs⟩
    · exact absurd h (splitOnChar_ne_nil sep cs)
    · simp only [splitOnChar, h] at hg
      by_cases hc : c = sep
      · rw [if_pos hc] at hg
        rcases List.mem_cons.mp hg with hg1 | hg2
        · subst hg1; simp
        · exact ih g (h ▸ hg2)
      · rw [if_neg hc] at hg
        rcases List.mem_cons.mp hg with hg1 | hg2
        · subst hg1
          intro hmem
          rcases List.mem_cons.mp hmem with hm1 | hm2
          · exact hc hm1.symm
          · exact ih g0 (h ▸ List.mem_cons_self g0 gs) hm2
        · exact ih g (h ▸ List.mem_cons_of_mem g0 hg2)

theorem pyStrip_subset (l : List Char) : ∀ c ∈ pyStrip l, c ∈ l := by
  intro c hc
  simp only [pyStrip, List.mem_reverse] at hc
  have h1 := (List.dropWhile_sublist (l := (l.dropWhile Char.isWhitespace).reverse)
    (p := Char.isWhitespace)).subset hc
  rw [List.mem_reverse] at h1
  exact (List.dropWhile_sublist (l := l) (p := Char.isWhitespace)).subset h1

theorem fieldsOf_no_comma (s : String) : ∀ g ∈ fieldsOf s, ',' ∉ g := by
  intro g hg
  have core : ∀ g0 ∈ (splitOnChar ',' s.data).map pyStrip, ',' ∉ g0 := by
    intro g0 hg0
    rcases List.mem_map.mp hg0 with ⟨g1, hg1, he⟩
    intro hmem
    exact splitOnChar_sep_not_mem ',' s.data g1 hg1 (pyStrip_subset g1 ',' (he ▸ hmem))
  simp only [fieldsOf] at hg
  by_cases hl : ((splitOnChar ',' s.data).map pyStrip).length < 4
  · rw [if_pos hl] at hg
    rcases List.mem_append.mp hg with hg1 | hg2
    · exact core g hg1
    · rw [List.eq_of_mem_replicate hg2]
      simp
  · rw [if_neg hl] at hg
    exact core g hg

theorem rateField_no_comma (s : String) : ',' ∉ rateField s := by
  unfold rateField
  by_cases h : 3 < (fieldsOf s).length
  · rw [List.getD_eq_getElem (fieldsOf s) [] h]
    exact fieldsOf_no_comma s _ (List.getElem_mem h)
  · rw [List.getD_eq_default (fieldsOf s) [] (by omega)]
    simp

theorem rateField_filter_eq (s : String) :
    (rateField s).filter (fun c => c ≠ '$' && c ≠ ',')
      = (rateField s).filter (fun c => c ≠ '$') := by
  refine List.filter_congr (fun c hc => ?_)
  have hne : c ≠ ',' := fun h => rateField_no_comma s (h ▸ hc)
  simp [hne]

/-- C5: `parse_item_string` behaves exactly as the specification words it —
the input splits on commas into 4 logical fields (missing trailing fields
empty), quantity parses as an integer defaulting to 1 on an empty field, and
the rate field, stripped of currency symbols and (necessarily absent, since
the split already consumed every comma) thousands separators, parses as a
decimal defaulting to 0 on an empty field.  The claim's two examples
evaluate as stated. -/
theorem parse_item_refines_spec (s : String) :
    parse_item_string s = parse_item_string_asSpec s
  ∧ parse_item_string "Consulting,Jan 1-15,10,150"
      = .ok { service := "Consulting", date := "Jan 1-15", quantity := 10, rate := 150 }
  ∧ parse_item_string "Design,,3,99.5"
      = .ok { service := "Design", date := "", quantity := 3, rate := (199 : ℚ) / 2 }
  ∧ lineTotal { service := "Design", date := "", quantity := 3, rate := (199 : ℚ) / 2 }
      = (597 : ℚ) / 2 := by
  refine ⟨?_, by decide, by decide, by decide⟩
  simp only [parse_item_string, parse_item_string_asSpec]
  rw [rateField_filter_eq]

/-! ### Malformed numeric text (C6) -/

theorem pyIntParse_error_payload (l : List Char) (e : PyErr)
    (h : pyIntParse l = .error e) : e = .invalidIntLiteral (String.mk l) := by
  unfold pyIntParse at h
  rcases hb : intBody (pyStrip l) with _ | v
  · rw [hb] at h
    simp only [Except.error.injEq] at h
    exact h.symm
  · rw [hb] at h
    simp at h

theorem pyFloatParse_error_payload (l : List Char) (e : PyErr)
    (h : pyFloatParse l = .error e) : e = .invalidFloatLiteral (String.mk l) := by
  unfold pyFloatParse at h
  rcases hb : floatBody (pyStrip l) with _ | v
  · rw [hb] at h
    simp only [Except.error.injEq] at h
    exact h.symm
  · rw [hb] at h
    simp at h

theorem parseItems_error_of_mem (l : List String) (s : String)
    (hs : s ∈ l) (he : exOk (parse_item_string s) = false) :
    ∃ e, parseItems l = .error e := by
  induction l with
  | nil => cases hs
  | cons a as ih =>
    rcases hp : parse_item_string a with e | it
    · exact ⟨e, by simp [parseItems, hp]⟩
    · rcases List.mem_cons.mp hs with hsa | hsas
      · subst hsa
        rw [hp] at he
        simp [exOk] at he
      · obtain ⟨e, hpe⟩ := ih hsas
        exact ⟨e, by simp [parseItems, hp, hpe]⟩

/-- C6, counterexample: on a malformed quantity field the raised error
echoes the offending field text (`"xx"`, as `int()` does), which is not the
full offending item string the claim says is named. -/
theorem parse_error_payload_cex :
    parse_item_string "Consulting,Jan 1-15,xx,150"
      = .error (.invalidIntLiteral "xx")
  ∧ "xx" ≠ "Consulting,Jan 1-15,xx,150" := by
  decide

/-- C6, amended: a nonempty quantity field rejected by `int()` aborts the
parse with an error echoing that field; otherwise a nonempty rate field
rejected by `float()` (after `$` removal) aborts it echoing the text passed
to `float()`; and any invocation whose `--item` list contains such a string
aborts with an error, leaving the counter store unchanged and producing no
document.  The echoed text is the malformed field, not the full item
string. -/
theorem parse_error_echoes_field (s : String) :
    (quantityField s ≠ [] → exOk (pyIntParse (quantityField s)) = false →
      parse_item_string s = .error (.invalidIntLiteral (String.mk (quantityField s))))
  ∧ (exOk (if (quantityField s).isEmpty then Except.ok (1 : Int)
        else pyIntParse (quantityField s)) = true →
      rateField s ≠ [] →
      exOk (pyFloatParse ((rateField s).filter (fun c => c ≠ '$'))) = false →
      parse_item_string s = .error (.invalidFloatLiteral
        (String.mk ((rateField s).filter (fun c => c ≠ '$')))))
  ∧ (∀ (args : Args) (clients : List (String × ClientRec)) (today : String)
        (st : CounterStore) (l : List String),
      args.from_json = none → pyTruthyS args.client = false → args.item = some l →
      s ∈ l → exOk (parse_item_string s) = false →
      ∃ e, runMain args clients today st = some (.error e, st)) := by
  refine ⟨?_, ?_, ?_⟩
  · intro h1 h2
    have hie : (quantityField s).isEmpty = false := by
      cases hq : quantityField s with
      | nil => exact absurd hq h1
      | cons c cs => rfl
    rcases hp : pyIntParse (quantityField s) with e | v
    · have hpe := pyIntParse_error_payload _ _ hp
      subst hpe
      have hcond : ¬((quantityField s).isEmpty = true) := by simp [hie]
      simp only [parse_item_string]
      rw [if_neg hcond, hp]
    · rw [hp] at h2
      simp [exOk] at h2
  · intro hq h3 h4
    have hie : (rateField s).isEmpty = false := by
      cases hr : rateField s with
      | nil => exact absurd hr h3
      | cons c cs => rfl
    rcases he : (if (quantityField s).isEmpty then Except.ok (1 : Int)
        else pyIntParse (quantityField s)) with e | v
    · rw [he] at hq
      simp [exOk] at hq
    · rcases hp : pyFloatParse ((rateField s).filter (fun c => c ≠ '$')) with e | r
      · have hpe := pyFloatParse_error_payload _ _ hp
        subst hpe
        have hcond : ¬((rateField s).isEmpty = true) := by simp [hie]
        simp only [parse_item_string]
        rw [he, if_neg hcond, hp]
      · rw [hp] at h4
        simp [exOk] at h4
  · intro args clients today st l hj hc hi hs he
    obtain ⟨e, hpe⟩ := parseItems_error_of_mem l s hs he
    have hle : l.isEmpty = false := by
      cases l with
      | nil => cases hs
      | cons a as => rfl
    refine ⟨e, ?_⟩
    simp only [runMain, hj, hi, pyTruthyL, hle, Bool.not_false, Bool.or_true, Bool.true_or,
      if_true, Option.some.injEq]
    have hb : buildFromArgs args clients today = .error e := by
      simp only [buildFromArgs, hc, Bool.false_eq_true, if_false, hi, hle, hpe]
    rw [hb]

/-! ### Money formatting and the table (C8, C9) -/

theorem foldl_add_lineTotal (l : List Item) :
    ∀ a : ℚ, l.foldl (fun acc it => acc + lineTotal it) a = a + (l.map lineTotal).sum := by
  induction l with
  | nil => intro a; simp
  | cons x xs ih =>
    intro a
    simp only [List.foldl_cons, List.map_cons, List.sum_cons, ih]
    ring

theorem grandTotal_eq_sum (items : List Item) :
    grandTotal items = (items.map lineTotal).sum := by
  simpa [grandTotal] using foldl_add_lineTotal items 0

theorem pyTrunc_whole_iff (v : ℚ) : ((pyTrunc v : ℚ) = v) ↔ v.den = 1 := by
  constructor
  · intro h
    have := congrArg Rat.den h
    rw [Rat.den_intCast] at this
    exact this.symm
  · intro h
    unfold pyTrunc
    rw [h]
    simpa using Rat.coe_int_num_of_den_eq_one h

theorem roundHE_intOfDenOne (v : ℚ) (h : v.den = 1) : roundHE v = v.num := by
  unfold roundHE
  rw [h]
  simp [Int.fdiv_one]

theorem moneyStr_whole (v : ℚ) (h : v.den = 1) : moneyStr v = "$" ++ intRepr v.num := by
  unfold moneyStr fmtDot0
  rw [if_pos h, roundHE_intOfDenOne v h]

theorem natRepr_length_one (m : Nat) (h : m < 10) : (natRepr m).length = 1 := by
  have hd : decDigits m = [m] := by rw [decDigits_eq, if_pos h]
  simp [natRepr, natDigits, hd, String.length]

theorem natRepr_length_two (m : Nat) (h10 : 10 ≤ m) (h100 : m < 100) :
    (natRepr m).length = 2 := by
  have hge := decDigits_length_ge 1 m (by simpa using h10)
  have hle := decDigits_length_le 2 (by omega) m (by simpa using h100)
  have hd : (decDigits m).length = 2 := by omega
  simp [natRepr, natDigits, hd, String.length]

theorem fmtDot2_shape (v : ℚ) :
    ∃ pre frac, fmtDot2 v = pre ++ "." ++ frac ∧ frac.length = 2 := by
  have hfrs : ∀ m : Nat, m < 100 →
      (if m < 10 then "0" ++ natRepr m else natRepr m).length = 2 := by
    intro m hm
    by_cases h : m < 10
    · rw [if_pos h, String.length_append, natRepr_length_one m h]
      decide
    · rw [if_neg h, natRepr_length_two m (by omega) hm]
  have hmod : (roundHE (v * 100)).natAbs % 100 < 100 := Nat.mod_lt _ (by omega)
  simp only [fmtDot2]
  by_cases hc : roundHE (v * 100) < 0
  · rw [if_pos hc]
    refine ⟨"-" ++ natRepr ((roundHE (v * 100)).natAbs / 100), _, ?_, hfrs _ hmod⟩
    simp [String.append_assoc]
  · rw [if_neg hc]
    exact ⟨natRepr ((roundHE (v * 100)).natAbs / 100), _, rfl, hfrs _ hmod⟩

/-- C8: the final `Total` row carries the money rendering of the sum of the
per-item `quantity * rate` totals, recomputed by the renderer from the items
alone (the record stores no total); each row renders its rate and row total
with the same money rule; and that rule renders a whole number with no
decimal places and anything else with exactly two, always `$`-prefixed —
so 1500 renders as `$1500` and 298.5 as `$298.50`. -/
theorem grand_total_formatting (items : List Item) (v : ℚ) :
    (buildTable items).getLast?
      = some ["Total", "", "", "", moneyStr ((items.map lineTotal).sum)]
  ∧ grandTotal items = (items.map lineTotal).sum
  ∧ (∀ it, itemRow it = [it.service, it.date, intRepr it.quantity, moneyStr it.rate,
      moneyStr ((it.quantity : ℚ) * it.rate)])
  ∧ (v.den = 1 → moneyStr v = "$" ++ intRepr v.num)
  ∧ (v.den ≠ 1 → moneyStr v = "$" ++ fmtDot2 v
      ∧ ∃ pre frac, fmtDot2 v = pre ++ "." ++ frac ∧ frac.length = 2)
  ∧ moneyStr 1500 = "$1500" ∧ moneyStr ((597 : ℚ) / 2) = "$298.50" := by
  refine ⟨?_, grandTotal_eq_sum items, fun it => rfl, moneyStr_whole v, ?_, by decide, by decide⟩
  · show (headerRow :: (items.map itemRow
        ++ [["Total", "", "", "", moneyStr (grandTotal items)]])).getLast? = _
    rw [grandTotal_eq_sum items, ← List.cons_append]
    exact List.getLast?_concat _
  · intro h
    refine ⟨?_, fmtDot2_shape v⟩
    unfold moneyStr
    rw [if_neg h]

theorem grand_total_formatting_w :
    ((597 : ℚ) / 2).den ≠ 1
  ∧ (moneyStr ((597 : ℚ) / 2) = "$" ++ fmtDot2 ((597 : ℚ) / 2)
      ∧ ∃ pre frac, fmtDot2 ((597 : ℚ) / 2) = pre ++ "." ++ frac ∧ frac.length = 2)
  ∧ (buildTable [({ service := "Consulting", date := "Jan 1-15", quantity := 10, rate := 150 } : Item)]).getLast?
      = some ["Total", "", "", "",
          moneyStr (([({ service := "Consulting", date := "Jan 1-15", quantity := 10, rate := 150 } : Item)].map lineTotal).sum)] :=
  ⟨by decide,
   (grand_total_formatting [] ((597 : ℚ) / 2)).2.2.2.2.1 (by decide),
   (grand_total_formatting [({ service := "Consulting", date := "Jan 1-15", quantity := 10, rate := 150 } : Item)] 0).1⟩

/-- C9, counterexample: the header row of the rendered table reads
`"Services"` in its first cell, not the `"Service"` of the claimed fixed
column order. -/
theorem table_header_cex :
    (buildTable []).head? = some ["Services", "Date", "Quantity", "Rate", "Total"]
  ∧ (["Services", "Date", "Quantity", "Rate", "Total"] : List String)
      ≠ ["Service", "Date", "Quantity", "Rate", "Total"] := by
  decide

/-- C9, amended: the table is the header row `Services, Date, Quantity,
Rate, Total` (the first label is the plural `"Services"`), then exactly one
row per item in the fixed order service, date, quantity, rate, row total,
then a final `Total` row of the label, three blank cells, and the grand
total; `generate_pdf` renders exactly this table for the record's items. -/
theorem table_structure (items : List Item) (inv : Invoice) :
    buildTable items
      = ["Services", "Date", "Quantity", "Rate", "Total"]
        :: items.map itemRow ++ [["Total", "", "", "", moneyStr (grandTotal items)]]
  ∧ (generate_pdf inv).table = buildTable inv.items
  ∧ (∀ it, itemRow it = [it.service, it.date, intRepr it.quantity, moneyStr it.rate,
      moneyStr (lineTotal it)]) :=
  ⟨rfl, rfl, fun _ => rfl⟩

theorem parse_error_echoes_field_w :
    parse_item_string "Consulting,Jan 1-15,xx,150"
      = .error (.invalidIntLiteral (String.mk (quantityField "Consulting,Jan 1-15,xx,150")))
  ∧ ∃ e, runMain { item := some ["Consulting,Jan 1-15,xx,150"] } [] "May 5, 2025" .absent
      = some (.error e, .absent) := by
  refine ⟨(parse_error_echoes_field "Consulting,Jan 1-15,xx,150").1 (by decide) (by decide),
    (parse_error_echoes_field "Consulting,Jan 1-15,xx,150").2.2
      { item := some ["Consulting,Jan 1-15,xx,150"] } [] "May 5, 2025" .absent
      ["Consulting,Jan 1-15,xx,150"] rfl rfl rfl (by decide) (by decide)⟩
